import Mathlib

/-!
Verification development for the steam-grid-ripper utility
(source: src/steam-grid-ripper.py).

The Python source is shallowly embedded: heterogeneous Python values that
flow through the registry reader are modelled by the inductive `PyVal`;
Python machine behaviour (arbitrary-precision ints masked with
`& 0xFFFFFFFF`) is modelled with explicit `% 2^32`; fallible operations
return `Option` or `Except`.  File systems and the network are modelled as
explicit values passed to the embedded functions.
-/

/-- A Python value as it can appear in a field of a parsed shortcuts.vdf
entry: `None`, an int, a bytes object (list of byte values), or a str. -/
inductive PyVal where
  | pnone : PyVal
  | pint (v : Int) : PyVal
  | pbytes (b : List Nat) : PyVal
  | pstr (s : String) : PyVal
deriving DecidableEq, Repr

/-- Python truthiness for the values of `PyVal`: `None`, `0`, empty bytes
and the empty string are falsy, everything else is truthy. -/
def PyVal.truthy : PyVal → Bool
  | .pnone => false
  | .pint v => v ≠ 0
  | .pbytes b => !b.isEmpty
  | .pstr s => !(s = "")

/-- Embedding of Python `a or b`: the first operand if it is truthy,
otherwise the second operand. -/
def pyOr (a b : PyVal) : PyVal :=
  if a.truthy then a else b

/-- Python whitespace characters stripped by `int(...)` and `str.strip()`
(ASCII subset; the fields handled by this program are ASCII). -/
def isPySpace (c : Char) : Bool :=
  c = ' ' || c = '\t' || c = '\n' || c = '\x0d' || c = '\x0b' || c = '\x0c'

/-- Digit run accepted by Python `int(...)` after the first digit:
digits, with single underscores allowed only between two digits.
`acc` is the value of the digits consumed so far. -/
def parseDigitsCore : Nat → List Char → Option Nat
  | acc, [] => some acc
  | acc, c :: rest =>
    if c.isDigit then parseDigitsCore (10 * acc + (c.toNat - 48)) rest
    else if c = '_' then
      match rest with
      | d :: rest2 =>
        if d.isDigit then parseDigitsCore (10 * acc + (d.toNat - 48)) rest2
        else none
      | [] => none
    else none

/-- Nonempty digit run (first character must be a digit). -/
def parsePyNat : List Char → Option Nat
  | [] => none
  | c :: rest => if c.isDigit then parseDigitsCore (c.toNat - 48) rest else none

/-- Strip leading and trailing Python whitespace from a character list. -/
def stripWs (cs : List Char) : List Char :=
  ((cs.dropWhile isPySpace).reverse.dropWhile isPySpace).reverse

/-- Embedding of Python `int(s)` for a str argument: optional surrounding
whitespace, optional single sign, then a nonempty digit run with optional
single underscores between digits.  `none` models a raised ValueError. -/
def parsePyInt (s : String) : Option Int :=
  match stripWs s.toList with
  | '-' :: rest => (parsePyNat rest).map (fun n => -(n : Int))
  | '+' :: rest => (parsePyNat rest).map (fun n => (n : Int))
  | rest => (parsePyNat rest).map (fun n => (n : Int))

/-- Unsigned integer denoted by a bytes object read little-endian, the
embedding of Python `int.from_bytes(raw, "little", signed=False)` (the
first byte is least significant; this never raises, any length). -/
def fromBytesLE : List Nat → Nat
  | [] => 0
  | b :: rest => b + 256 * fromBytesLE rest

/-- Embedding of Python `v & 0xFFFFFFFF` on an arbitrary-precision int:
for every Python int (negative ints are infinite two's complement) the
result is the residue of `v` modulo `2^32`, in `[0, 2^32)`. -/
def land32 (v : Int) : Int :=
  v % (2 ^ 32 : Int)

/-- Embedding of `normalize_appid_field` (src/steam-grid-ripper.py,
lines 69-94).  `raw is None` yields `None`; a bytes value is read
little-endian and masked to 32 bits; an int is masked to 32 bits; a str
goes through `int(raw)` (and the fallback `int(str(raw))`, which for a
str is the same parse, so a failed parse yields `None`).  The result is
the decimal rendering of the unsigned 32-bit value. -/
def normalize_appid_field : PyVal → Option String
  | .pnone => none
  | .pbytes b => some (Nat.repr (fromBytesLE b % 2 ^ 32))
  | .pint v => some (Nat.repr (land32 v).toNat)
  | .pstr s =>
    match parsePyInt s with
    | some v => some (Nat.repr (land32 v).toNat)
    | none => none

/-- A list of bytes (all below 256) read little-endian denotes a value
below `256 ^ length`. -/
theorem fromBytesLE_lt (b : List Nat) (hb : ∀ x ∈ b, x < 256) :
    fromBytesLE b < 256 ^ b.length := by
  induction b with
  | nil => simp [fromBytesLE]
  | cons x rest ih =>
    have hx : x < 256 := hb x (List.mem_cons_self x rest)
    have hr : fromBytesLE rest < 256 ^ rest.length :=
      ih (fun y hy => hb y (List.mem_cons_of_mem x hy))
    simp only [fromBytesLE, List.length_cons, pow_succ]
    set k := 256 ^ rest.length
    omega

/-- C1: for every 4-byte little-endian byte sequence `b`,
`normalize_appid_field` returns the decimal rendering of the unsigned
integer obtained by reading `b` little-endian; that integer is already
below `2 ^ 32`, so the 32-bit mask is the identity on it. -/
theorem normalize_bytes_little_endian (b : List Nat) (hlen : b.length = 4)
    (hb : ∀ x ∈ b, x < 256) :
    normalize_appid_field (PyVal.pbytes b) = some (Nat.repr (fromBytesLE b)) ∧
      fromBytesLE b < 2 ^ 32 := by
  have h : fromBytesLE b < 2 ^ 32 := by
    have := fromBytesLE_lt b hb
    rw [hlen] at this
    norm_num at this
    exact this
  have h2 : fromBytesLE b % 4294967296 = fromBytesLE b := Nat.mod_eq_of_lt (by omega)
  refine ⟨?_, h⟩
  simp [normalize_appid_field, h2]

/-- Witness for C1 at the concrete byte sequence `[21, 205, 91, 7]`,
whose little-endian value is 123456789. -/
theorem normalize_bytes_little_endian_witness :
    normalize_appid_field (PyVal.pbytes [21, 205, 91, 7]) = some "123456789" :=
  (normalize_bytes_little_endian [21, 205, 91, 7] (by decide) (by decide)).1

/-- C2: the sign and high bits of an integer input have no effect:
normalizing `v` and normalizing `v & 0xFFFFFFFF` produce the same
canonical identifier, for every integer `v`. -/
theorem normalize_int_mask_invariant (v : Int) :
    normalize_appid_field (PyVal.pint v) =
      normalize_appid_field (PyVal.pint (land32 v)) := by
  simp [normalize_appid_field, land32, Int.emod_emod_of_dvd]

/-- C3: `normalize_appid_field` is a total Lean function (so the embedded
code never raises); on the input `None` and on any text that does not
parse as a Python decimal integer it returns `none`, the explicit
no-canonical-id value. -/
theorem normalize_total_failure_paths :
    normalize_appid_field PyVal.pnone = none ∧
      ∀ s : String, parsePyInt s = none →
        normalize_appid_field (PyVal.pstr s) = none := by
  refine ⟨rfl, fun s h => ?_⟩
  simp [normalize_appid_field, h]

/-- Witness for C3 at the unparseable text `"abc"`. -/
theorem normalize_total_failure_paths_witness :
    parsePyInt "abc" = none ∧
      normalize_appid_field (PyVal.pstr "abc") = none :=
  ⟨by decide, normalize_total_failure_paths.2 "abc" (by decide)⟩

/-- Validity of the second byte of a 3-byte UTF-8 sequence (excludes
overlong encodings and surrogates, as CPython does). -/
def utf8Cont3 (b1 b2 : Nat) : Bool :=
  if b1 = 224 then 160 ≤ b2 && b2 ≤ 191
  else if b1 = 237 then 128 ≤ b2 && b2 ≤ 159
  else 128 ≤ b2 && b2 ≤ 191

/-- Validity of the second byte of a 4-byte UTF-8 sequence (excludes
overlong encodings and values above U+10FFFF). -/
def utf8Cont4 (b1 b2 : Nat) : Bool :=
  if b1 = 240 then 144 ≤ b2 && b2 ≤ 191
  else if b1 = 244 then 128 ≤ b2 && b2 ≤ 143
  else 128 ≤ b2 && b2 ≤ 191

/-- UTF-8 continuation byte. -/
def utf8Cont (b : Nat) : Bool := 128 ≤ b && b ≤ 191

/-- Decoding loop for permissive UTF-8 decoding.  The fuel argument (an
upper bound on the number of steps, each step consumes at least one
byte) makes the recursion structural so that the function reduces on
concrete inputs. -/
def utf8DecodeLoop : Nat → List Nat → List Char
  | _, [] => []
  | 0, _ :: _ => []
  | fuel + 1, b1 :: rest =>
    if b1 < 128 then Char.ofNat b1 :: utf8DecodeLoop fuel rest
    else if 194 ≤ b1 && b1 ≤ 223 then
      match rest with
      | b2 :: r2 =>
        if utf8Cont b2 then
          Char.ofNat ((b1 - 192) * 64 + (b2 - 128)) :: utf8DecodeLoop fuel r2
        else utf8DecodeLoop fuel (b2 :: r2)
      | [] => []
    else if 224 ≤ b1 && b1 ≤ 239 then
      match rest with
      | b2 :: b3 :: r3 =>
        if utf8Cont3 b1 b2 && utf8Cont b3 then
          Char.ofNat ((b1 - 224) * 4096 + (b2 - 128) * 64 + (b3 - 128)) ::
            utf8DecodeLoop fuel r3
        else utf8DecodeLoop fuel (b2 :: b3 :: r3)
      | r => utf8DecodeLoop fuel r
    else if 240 ≤ b1 && b1 ≤ 244 then
      match rest with
      | b2 :: b3 :: b4 :: r4 =>
        if utf8Cont4 b1 b2 && utf8Cont b3 && utf8Cont b4 then
          Char.ofNat
              ((b1 - 240) * 262144 + (b2 - 128) * 4096 + (b3 - 128) * 64 +
                (b4 - 128)) ::
            utf8DecodeLoop fuel r4
        else utf8DecodeLoop fuel (b2 :: b3 :: b4 :: r4)
      | r => utf8DecodeLoop fuel r
    else utf8DecodeLoop fuel rest

/-- Embedding of Python `raw.decode("utf-8", "ignore")`: decode UTF-8,
dropping invalid bytes instead of raising. -/
def utf8DecodeIgnore (l : List Nat) : List Char :=
  utf8DecodeLoop l.length l

/-- Embedding of the per-field text recovery in `read_shortcuts`
(lines 120-121): `raw.decode("utf-8", "ignore") if isinstance(raw,
(bytes, bytearray)) else str(raw)`. -/
def pyFieldToText : PyVal → String
  | .pbytes b => String.mk (utf8DecodeIgnore b)
  | .pstr s => s
  | .pint v => toString v
  | .pnone => "None"

/-- One parsed shortcuts.vdf entry, a Python dict whose keys may be text
or bytes (the format guarantees neither); a bytes key such as
`bytes "appid"` is modelled by its name in `bytesFields`.  A lookup of an
absent key returns `pnone`, the embedding of `dict.get` returning
`None`. -/
structure VdfEntry where
  strFields : List (String × PyVal)
  bytesFields : List (String × PyVal)
deriving DecidableEq, Repr

/-- First value bound to a key in an association list, `pnone` when the
key is absent (embedding of Python `dict.get(key)`). -/
def lookupField : List (String × PyVal) → String → PyVal
  | [], _ => PyVal.pnone
  | (k, v) :: rest, key => if k = key then v else lookupField rest key

/-- Embedding of `ent.get("appid") or ent.get(b"appid")` (line 115): the
text-key value when it is truthy, otherwise the bytes-key value. -/
def entAppidRaw (ent : VdfEntry) : PyVal :=
  pyOr (lookupField ent.strFields "appid") (lookupField ent.bytesFields "appid")

/-- Embedding of `ent.get(k) or ent.get(bytes k) or bytes ""`, the lookup
chain used for the AppName and Exe fields (lines 118-119). -/
def entTextFieldRaw (ent : VdfEntry) (k : String) : PyVal :=
  pyOr (pyOr (lookupField ent.strFields k) (lookupField ent.bytesFields k))
    (PyVal.pbytes [])

/-- One record produced by `read_shortcuts` (lines 125-130). -/
structure ShortcutRecord where
  appid : String
  appName : String
  exe : String
  raw : VdfEntry
deriving DecidableEq, Repr

/-- The body of the entry loop of `read_shortcuts` (lines 113-130) for a
single entry: normalize the appid lookup chain, decode name and exe
permissively, and drop the entry (`continue`) when the normalized appid
is falsy (`None` or the empty string). -/
def processEntry (ent : VdfEntry) : Option ShortcutRecord :=
  let appid_s := normalize_appid_field (entAppidRaw ent)
  let name := pyFieldToText (entTextFieldRaw ent "AppName")
  let exe := pyFieldToText (entTextFieldRaw ent "Exe")
  match appid_s with
  | none => none
  | some s => if s = "" then none else some ⟨s, name, exe, ent⟩

/-- The parsed top level of shortcuts.vdf as returned by
`vdf.binary_load`: the `shortcuts` collection may sit under a text key or
a bytes key (or be absent).  Entry insertion order is kept as a list; the
loop uses only the values of the inner dict. -/
structure VdfData where
  strShortcuts : Option (List VdfEntry)
  bytesShortcuts : Option (List VdfEntry)
deriving DecidableEq, Repr

/-- Embedding of Python `a or b` for an optional dict operand: an absent
key (`None`) and an empty dict are both falsy. -/
def orShortcuts : Option (List VdfEntry) → List VdfEntry → List VdfEntry
  | some l, d => if l.isEmpty then d else l
  | none, d => d

/-- Embedding of `data.get("shortcuts") or data.get(b"shortcuts") or {}`
(line 112). -/
def vdfShortcuts (d : VdfData) : List VdfEntry :=
  orShortcuts d.strShortcuts (orShortcuts d.bytesShortcuts [])

/-- Embedding of `read_shortcuts` (lines 97-131).  The file system and
the binary parser are modelled by the argument: `none` means the path
does not exist (`shortcuts_path.exists()` is false), `some (.error e)`
means `vdf.binary_load` raised (the exception propagates to the caller,
modelled by `Except.error`), `some (.ok d)` is a successful parse. -/
def read_shortcuts (file : Option (Except Unit VdfData)) :
    Except Unit (List ShortcutRecord) :=
  match file with
  | none => Except.ok []
  | some (Except.error e) => Except.error e
  | some (Except.ok d) => Except.ok ((vdfShortcuts d).filterMap processEntry)

/-- `Nat.toDigitsCore` never shrinks a nonempty accumulator to nil. -/
theorem toDigitsCore_acc_ne_nil (base : Nat) :
    ∀ (fuel n : Nat) (ds : List Char), ds ≠ [] →
      Nat.toDigitsCore base fuel n ds ≠ [] := by
  intro fuel
  induction fuel with
  | zero => intro n ds h; exact h
  | succ f ih =>
    intro n ds h
    unfold Nat.toDigitsCore
    by_cases hb : n / base = 0
    · simp [hb]
    · simp only [hb, if_false]
      exact ih (n / base) _ (List.cons_ne_nil _ _)

/-- With positive fuel, `Nat.toDigitsCore` produces a nonempty list. -/
theorem toDigitsCore_ne_nil (base fuel n : Nat) (ds : List Char)
    (h : fuel ≠ 0) : Nat.toDigitsCore base fuel n ds ≠ [] := by
  cases fuel with
  | zero => exact absurd rfl h
  | succ f =>
    unfold Nat.toDigitsCore
    by_cases hb : n / base = 0
    · simp [hb]
    · simp only [hb, if_false]
      exact toDigitsCore_acc_ne_nil base f (n / base) _ (List.cons_ne_nil _ _)

/-- The decimal rendering of a natural number is never the empty
string. -/
theorem natRepr_ne_empty (n : Nat) : Nat.repr n ≠ "" := by
  intro hc
  apply toDigitsCore_ne_nil 10 (n + 1) n [] (Nat.succ_ne_zero n)
  have h := congrArg String.data hc
  simpa [Nat.repr, Nat.toDigits, List.asString] using h

/-- `normalize_appid_field` never returns the empty string: every
canonical identifier it produces is a nonempty decimal rendering. -/
theorem normalize_ne_some_empty (v : PyVal) :
    normalize_appid_field v ≠ some "" := by
  cases v with
  | pnone => simp [normalize_appid_field]
  | pint w =>
    simp only [normalize_appid_field, ne_eq, Option.some.injEq]
    exact natRepr_ne_empty _
  | pbytes b =>
    simp only [normalize_appid_field, ne_eq, Option.some.injEq]
    exact natRepr_ne_empty _
  | pstr s =>
    simp only [normalize_appid_field]
    cases hp : parsePyInt s with
    | none => simp
    | some w =>
      simp only [ne_eq, Option.some.injEq]
      exact natRepr_ne_empty _

/-- A `filterMap` whose success set is described by a Boolean predicate
keeps exactly as many elements as the corresponding `filter`. -/
theorem filterMap_length_of_isSome {α β : Type} (f : α → Option β)
    (p : α → Bool) (hp : ∀ a, (f a).isSome = p a) :
    ∀ l : List α, (l.filterMap f).length = (l.filter p).length := by
  intro l
  induction l with
  | nil => rfl
  | cons a t ih =>
    cases hfa : f a with
    | none =>
      have hpa : p a = false := by rw [← hp a, hfa]; rfl
      simp [List.filterMap_cons, List.filter_cons, hfa, hpa, ih]
    | some b =>
      have hpa : p a = true := by rw [← hp a, hfa]; rfl
      simp [List.filterMap_cons, List.filter_cons, hfa, hpa, ih]

/-- C4: on every successfully parsed registry, an entry contributes a
record exactly when normalizing its identifier lookup chain yields a
canonical identifier; every produced record carries that identifier; and
the number of records equals the number of entries whose identifier
normalizes (so 5 entries with 2 unparseable identifiers yield 3
records). -/
theorem read_registry_inclusion_iff (d : VdfData) :
    read_shortcuts (some (Except.ok d)) =
        Except.ok ((vdfShortcuts d).filterMap processEntry) ∧
      (∀ ent : VdfEntry,
        (processEntry ent).isSome =
          (normalize_appid_field (entAppidRaw ent)).isSome) ∧
      (∀ (ent : VdfEntry) (r : ShortcutRecord), processEntry ent = some r →
        normalize_appid_field (entAppidRaw ent) = some r.appid) ∧
      ((vdfShortcuts d).filterMap processEntry).length =
        ((vdfShortcuts d).filter
          (fun ent => (normalize_appid_field (entAppidRaw ent)).isSome)).length := by
  have hiff : ∀ ent : VdfEntry,
      (processEntry ent).isSome =
        (normalize_appid_field (entAppidRaw ent)).isSome := by
    intro ent
    unfold processEntry
    cases h : normalize_appid_field (entAppidRaw ent) with
    | none => simp
    | some s =>
      have hs : s ≠ "" := by
        intro heq
        exact normalize_ne_some_empty (entAppidRaw ent) (heq ▸ h)
      simp [hs]
  refine ⟨rfl, hiff, ?_, ?_⟩
  · intro ent r hr
    cases h : normalize_appid_field (entAppidRaw ent) with
    | none => simp [processEntry, h] at hr
    | some s =>
      have hs : s ≠ "" := by
        intro heq
        exact normalize_ne_some_empty (entAppidRaw ent) (heq ▸ h)
      simp [processEntry, h, hs] at hr
      subst hr
      rfl
  · exact filterMap_length_of_isSome processEntry _ hiff _

/-- Witness for C4: a registry of 5 entries (identifiers: int 42, bytes
[1,0,0,0], text "7", missing, text "abc") of which exactly 2 fail
normalization yields exactly 3 records, and the produced identifier for
the first entry is "42". -/
theorem read_registry_inclusion_iff_witness :
    normalize_appid_field
        (entAppidRaw (VdfEntry.mk [("appid", PyVal.pint 42)] [])) =
      some "42" ∧
    ((vdfShortcuts
        (VdfData.mk
          (some
            [VdfEntry.mk [("appid", PyVal.pint 42)] [],
             VdfEntry.mk [("appid", PyVal.pbytes [1, 0, 0, 0])] [],
             VdfEntry.mk [("appid", PyVal.pstr "7")] [],
             VdfEntry.mk [("AppName", PyVal.pstr "x")] [],
             VdfEntry.mk [("appid", PyVal.pstr "abc")] []])
          none)).filterMap processEntry).length = 3 := by
  constructor
  · exact
      (read_registry_inclusion_iff (VdfData.mk none none)).2.2.1
        (VdfEntry.mk [("appid", PyVal.pint 42)] [])
        (ShortcutRecord.mk "42" "" ""
          (VdfEntry.mk [("appid", PyVal.pint 42)] [])) (by decide)
  · exact
      ((read_registry_inclusion_iff
            (VdfData.mk
              (some
                [VdfEntry.mk [("appid", PyVal.pint 42)] [],
                 VdfEntry.mk [("appid", PyVal.pbytes [1, 0, 0, 0])] [],
                 VdfEntry.mk [("appid", PyVal.pstr "7")] [],
                 VdfEntry.mk [("AppName", PyVal.pstr "x")] [],
                 VdfEntry.mk [("appid", PyVal.pstr "abc")] []])
              none)).2.2.2).trans (by decide)

/-- C5: `read_shortcuts` distinguishes container-level from entry-level
malformation: a nonexistent path yields the empty sequence, a container
that fails binary parsing propagates the failure to the caller, and a
successfully parsed container never fails regardless of how malformed
its individual entries are. -/
theorem read_registry_failure_semantics :
    read_shortcuts none = Except.ok [] ∧
      (∀ e : Unit, read_shortcuts (some (Except.error e)) = Except.error e) ∧
      (∀ d : VdfData, read_shortcuts (some (Except.ok d)) =
        Except.ok ((vdfShortcuts d).filterMap processEntry)) :=
  ⟨rfl, fun _ => rfl, fun _ => rfl⟩

/-- C10 counterexample: an entry whose stored identifier field is the
integer 0 under the bytes key is NOT excluded: the lookup chain
`ent.get("appid") or ent.get(b"appid")` returns the second operand even
when it is falsy, so the falsy value 0 reaches normalization and the
record appears in the result with canonical identifier "0". -/
theorem read_registry_falsy_id_counterexample :
    read_shortcuts
        (some (Except.ok
          (VdfData.mk (some [VdfEntry.mk [] [("appid", PyVal.pint 0)]]) none))) =
      Except.ok
        [ShortcutRecord.mk "0" "" ""
          (VdfEntry.mk [] [("appid", PyVal.pint 0)])] := rfl

/-- C10 amended: the falsy-skipping applies to the text-key lookup only.
An entry whose text-key identifier field is the integer 0 or the empty
byte sequence and which has no bytes-key identifier entry is excluded
from the output, even though `normalize_appid_field` applied to 0 or to
empty bytes would itself yield the canonical identifier "0". -/
theorem read_registry_falsy_text_id_skipped (ent : VdfEntry)
    (hstr : lookupField ent.strFields "appid" = PyVal.pint 0 ∨
      lookupField ent.strFields "appid" = PyVal.pbytes [])
    (hbytes : lookupField ent.bytesFields "appid" = PyVal.pnone) :
    processEntry ent = none ∧
      normalize_appid_field (PyVal.pint 0) = some "0" ∧
      normalize_appid_field (PyVal.pbytes []) = some "0" := by
  have hraw : entAppidRaw ent = PyVal.pnone := by
    unfold entAppidRaw pyOr
    rcases hstr with h | h <;> rw [h] <;> simp [PyVal.truthy, hbytes]
  refine ⟨?_, rfl, rfl⟩
  simp [processEntry, hraw, normalize_appid_field]

/-- Witness for the amended C10 at an entry storing integer 0 under the
text key "appid" with no bytes-key entry. -/
theorem read_registry_falsy_text_id_skipped_witness :
    processEntry (VdfEntry.mk [("appid", PyVal.pint 0)] []) = none ∧
      normalize_appid_field (PyVal.pint 0) = some "0" ∧
      normalize_appid_field (PyVal.pbytes []) = some "0" :=
  read_registry_falsy_text_id_skipped (VdfEntry.mk [("appid", PyVal.pint 0)] [])
    (Or.inl rfl) rfl

/-- Contents of the artwork output directory, as a map from file name to
file content (association list, first binding wins). -/
def getFile : List (String × String) → String → Option String
  | [], _ => none
  | (k, v) :: rest, key => if k = key then some v else getFile rest key

/-- Write (create or overwrite) one file of the directory. -/
def setFile : List (String × String) → String → String → List (String × String)
  | [], key, v => [(key, v)]
  | (k0, v0) :: rest, key, v =>
    if k0 = key then (key, v) :: rest else (k0, v0) :: setFile rest key v

/-- The exact text produced by `json.dump(default_json, f, indent=2)` on
the default document of lines 147-154: version tag 1 and the fixed
CenterCenter / 70.0 / 95.0 logo placement. -/
def defaultJsonText : String :=
  "\x7b\n  \"nVersion\": 1,\n  \"logoPosition\": \x7b\n    \"pinnedPosition\": \"CenterCenter\",\n    \"nWidthPct\": 70.0,\n    \"nHeightPct\": 95.0\n  \x7d\n\x7d"

/-- Embedding of `copy_or_write_json_for_target` (lines 134-159).  The
grid directory is the explicit map `fs`; `ioFail` models an I/O
exception raised anywhere inside the try block (the except arm swallows
it and returns the failure status, so the embedded function is total).
When the source sidecar `<source_appid>.json` exists its content is
copied to `<target_appid>.json` (`shutil.copy2` preserves content
byte-for-byte); otherwise the fixed default document is written
there. -/
def copy_or_write_json_for_target (fs : List (String × String))
    (ioFail : Bool) (source_appid target_appid : String) :
    String × List (String × String) :=
  let src := source_appid ++ ".json"
  let dst := target_appid ++ ".json"
  if ioFail then ("JSON failed", fs)
  else
    match getFile fs src with
    | some content => ("JSON copied", setFile fs dst content)
    | none => ("JSON written (default)", setFile fs dst defaultJsonText)

/-- Reading back a file just written returns exactly the written
content. -/
theorem getFile_setFile_same (fs : List (String × String)) (k v : String) :
    getFile (setFile fs k v) k = some v := by
  induction fs with
  | nil => simp [setFile, getFile]
  | cons p rest ih =>
    obtain ⟨k0, v0⟩ := p
    by_cases h : k0 = k
    · simp [setFile, getFile, h]
    · simp [setFile, getFile, h, ih]

/-- C6: when the source sidecar exists, the call returns the copied
status and the target file becomes a byte-for-byte copy of the source;
when it does not exist, the fixed default document is written to the
target and the written-default status is returned; any I/O exception
yields the failed status (and, the function being total, no exception
propagates). -/
theorem sidecar_copy_or_default (fs : List (String × String))
    (source target : String) :
    (∀ content : String, getFile fs (source ++ ".json") = some content →
      copy_or_write_json_for_target fs false source target =
          ("JSON copied", setFile fs (target ++ ".json") content) ∧
        getFile (copy_or_write_json_for_target fs false source target).2
            (target ++ ".json") = getFile fs (source ++ ".json")) ∧
      (getFile fs (source ++ ".json") = none →
        copy_or_write_json_for_target fs false source target =
            ("JSON written (default)",
              setFile fs (target ++ ".json") defaultJsonText) ∧
          getFile (copy_or_write_json_for_target fs false source target).2
              (target ++ ".json") = some defaultJsonText) ∧
      (copy_or_write_json_for_target fs true source target).1 =
        "JSON failed" := by
  refine ⟨?_, ?_, rfl⟩
  · intro content h
    refine ⟨by simp [copy_or_write_json_for_target, h], ?_⟩
    simp [copy_or_write_json_for_target, h, getFile_setFile_same]
  · intro h
    refine ⟨by simp [copy_or_write_json_for_target, h], ?_⟩
    simp [copy_or_write_json_for_target, h, getFile_setFile_same]

/-- Witness for C6: with `271590.json` present its content `SIDE` is
copied to `999999999.json`; on an empty directory the default document is
written; an I/O exception yields the failed status. -/
theorem sidecar_copy_or_default_witness :
    copy_or_write_json_for_target [("271590.json", "SIDE")] false "271590"
        "999999999" =
      ("JSON copied", [("271590.json", "SIDE"), ("999999999.json", "SIDE")]) ∧
    copy_or_write_json_for_target [] false "271590" "999999999" =
      ("JSON written (default)", [("999999999.json", defaultJsonText)]) ∧
    (copy_or_write_json_for_target [] true "271590" "999999999").1 =
      "JSON failed" := by
  refine ⟨?_, ?_, (sidecar_copy_or_default [] "271590" "999999999").2.2⟩
  · exact
      ((sidecar_copy_or_default [("271590.json", "SIDE")] "271590"
            "999999999").1 "SIDE" (by decide)).1.trans (by decide)
  · exact
      ((sidecar_copy_or_default [] "271590" "999999999").2.1 (by decide)).1

/-- Outcome of `requests.get` as seen by `download_to_file`: either the
connection attempt raised, or a response arrived with a status code and
a stream of body chunks (as yielded by `iter_content`). -/
inductive NetResult where
  | connError : NetResult
  | response (status : Nat) (chunks : List (List Nat)) : NetResult
deriving DecidableEq, Repr

/-- Embedding of `download_to_file` (lines 52-66).  `writeFail` models an
exception raised while opening or writing the destination file; the
second component is the content guaranteed written to the destination
(`none` when no complete write is guaranteed).  Falsy (empty) chunks are
skipped by the loop (`if chunk:`). -/
def download_to_file (net : NetResult) (writeFail : Bool) :
    Bool × Option (List Nat) :=
  match net with
  | .connError => (false, none)
  | .response status chunks =>
    if status ≠ 200 then (false, none)
    else if writeFail then (false, none)
    else (true, some ((chunks.filter (fun c => !c.isEmpty)).flatten))

/-- Skipping the empty chunks does not change the concatenated body. -/
theorem flatten_filter_nonempty (l : List (List Nat)) :
    (l.filter (fun c => !c.isEmpty)).flatten = l.flatten := by
  induction l with
  | nil => rfl
  | cons c rest ih =>
    by_cases h : c.isEmpty
    · have hc : c = [] := List.isEmpty_iff.mp h
      simp [List.filter_cons, h, hc, ih]
    · simp [List.filter_cons, h, ih]

/-- C7: the embedded `download_to_file` is total over its failure modes
and returns `true` exactly when the connection succeeded with status 200
and no write failure occurred; in that case the full response body (all
chunks concatenated) is what was written to the destination.  A
connection exception, a non-200 status, or a write exception each yield
`false`. -/
theorem download_success_iff (net : NetResult) (w : Bool) :
    ((download_to_file net w).1 = true ↔
      (∃ chunks, net = NetResult.response 200 chunks) ∧ w = false) ∧
      (∀ status chunks, net = NetResult.response status chunks →
        (download_to_file net w).1 = true →
        (download_to_file net w).2 = some chunks.flatten) ∧
      (download_to_file NetResult.connError w).1 = false := by
  refine ⟨?_, ?_, rfl⟩
  · cases net with
    | connError => simp [download_to_file]
    | response status chunks =>
      by_cases hs : status = 200
      · subst hs
        cases w <;> simp [download_to_file]
      · simp [download_to_file, hs]
  · intro status chunks hnet hok
    subst hnet
    by_cases hs : status = 200
    · subst hs
      cases w with
      | false => simp [download_to_file, flatten_filter_nonempty]
      | true => simp [download_to_file] at hok
    · simp [download_to_file, hs] at hok

/-- Witness for C7: a 200 response with body chunks (one of them empty)
succeeds and writes the full concatenated body; a 404 response and a
write failure each yield false. -/
theorem download_success_iff_witness :
    (download_to_file (NetResult.response 200 [[1, 2], [], [3]]) false).1 =
        true ∧
      (download_to_file (NetResult.response 200 [[1, 2], [], [3]]) false).2 =
        some [1, 2, 3] ∧
      (download_to_file (NetResult.response 404 [[1]]) false).1 = false ∧
      (download_to_file (NetResult.response 200 [[1]]) true).1 = false := by
  refine ⟨?_, ?_, ?_, ?_⟩
  · exact
      (download_success_iff (NetResult.response 200 [[1, 2], [], [3]])
            false).1.mpr ⟨⟨[[1, 2], [], [3]], rfl⟩, rfl⟩
  · exact
      ((download_success_iff (NetResult.response 200 [[1, 2], [], [3]])
              false).2.1 200 [[1, 2], [], [3]] rfl (by decide)).trans
        (by decide)
  · decide
  · decide

/-- Code-point lexicographic comparison on character lists, the order
CPython uses to compare the path strings in `sorted(base.iterdir())`
(all paths share the same parent prefix, so comparing the entry names is
the same as comparing the full paths). -/
def lexLe : List Char → List Char → Bool
  | [], _ => true
  | _ :: _, [] => false
  | a :: as, b :: bs =>
    if a < b then true else if a = b then lexLe as bs else false

/-- `lexLe` is reflexive. -/
theorem lexLe_refl (l : List Char) : lexLe l l = true := by
  induction l with
  | nil => rfl
  | cons a as ih => simp [lexLe, ih]

/-- `lexLe` is total. -/
theorem lexLe_total (a b : List Char) :
    lexLe a b = true ∨ lexLe b a = true := by
  induction a generalizing b with
  | nil => left; rfl
  | cons x xs ih =>
    cases b with
    | nil => right; rfl
    | cons y ys =>
      rcases lt_trichotomy x y with h | h | h
      · left; simp [lexLe, h]
      · subst h
        rcases ih ys with h2 | h2
        · left; simp [lexLe, h2]
        · right; simp [lexLe, h2]
      · right; simp [lexLe, h]

/-- `lexLe` is transitive. -/
theorem lexLe_trans (a : List Char) :
    ∀ b c, lexLe a b = true → lexLe b c = true → lexLe a c = true := by
  induction a with
  | nil => intro b c _ _; rfl
  | cons x xs ih =>
    intro b c hab hbc
    cases b with
    | nil => simp [lexLe] at hab
    | cons y ys =>
      cases c with
      | nil => simp [lexLe] at hbc
      | cons z zs =>
        simp only [lexLe] at hab hbc ⊢
        by_cases hxy : x < y
        · by_cases hyz : y < z
          · simp [lt_trans hxy hyz]
          · by_cases hey : y = z
            · subst hey; simp [hxy]
            · simp [hyz, hey] at hbc
        · by_cases hexy : x = y
          · subst hexy
            by_cases hyz : x < z
            · simp [hyz]
            · by_cases hez : x = z
              · subst hez
                simp [lt_irrefl] at hab hbc ⊢
                exact ih ys zs hab hbc
              · simp [hyz, hez] at hbc
          · simp [hxy, hexy] at hab

/-- One immediate child of the userdata base directory: its name and
whether it is a directory. -/
structure DirEntry where
  name : String
  isDir : Bool
deriving DecidableEq, Repr

/-- Embedding of Python `s.isdigit()` (ASCII subset: the account folder
names compared here are ASCII): nonempty and all characters digits. -/
def pyIsdigit (s : String) : Bool := !(s = "") && s.toList.all Char.isDigit

/-- The selection test of line 41: `entry.is_dir() and
entry.name.isdigit()`. -/
def entryQualifies (e : DirEntry) : Bool := e.isDir && pyIsdigit e.name

/-- Order in which `sorted(base.iterdir())` arranges the entries. -/
def entryLe (a b : DirEntry) : Prop := lexLe a.name.toList b.name.toList = true

instance : DecidableRel entryLe :=
  fun a b => inferInstanceAs (Decidable (lexLe a.name.toList b.name.toList = true))

instance : IsTotal DirEntry entryLe :=
  ⟨fun a b => lexLe_total a.name.toList b.name.toList⟩

instance : IsTrans DirEntry entryLe :=
  ⟨fun _ _ _ hab hbc => lexLe_trans _ _ _ hab hbc⟩

/-- Embedding of `sorted(base.iterdir())` (line 40). -/
def sortEntries (l : List DirEntry) : List DirEntry := l.insertionSort entryLe

/-- Embedding of `find_steam_userdata` (lines 35-43).  The file system is
the explicit argument: `none` means the fixed base directory does not
exist; `some entries` gives its immediate children.  The loop returns
the first sorted entry that is a directory with an all-digit name,
paired with that name as the account id; `(None, None)` is modelled by
`none`. -/
def find_steam_userdata (base : Option (List DirEntry)) :
    Option (String × DirEntry) :=
  match base with
  | none => none
  | some entries =>
    ((sortEntries entries).find? entryQualifies).map (fun e => (e.name, e))

/-- The first element that `find?` returns from a sorted list is a lower
bound of every element of the list satisfying the predicate. -/
theorem find_first_sorted_min {p : DirEntry → Bool} :
    ∀ l : List DirEntry, l.Sorted entryLe → ∀ e, l.find? p = some e →
      ∀ e2 ∈ l, p e2 = true → entryLe e e2 := by
  intro l
  induction l with
  | nil => intro _ e h; simp at h
  | cons a t ih =>
    intro hs e hfind e2 he2 hp
    by_cases hpa : p a
    · rw [List.find?_cons_of_pos _ hpa] at hfind
      obtain rfl : a = e := by injection hfind
      rcases List.mem_cons.mp he2 with rfl | hmem
      · exact lexLe_refl _
      · exact List.rel_of_sorted_cons hs e2 hmem
    · rw [List.find?_cons_of_neg _ hpa] at hfind
      rcases List.mem_cons.mp he2 with rfl | hmem
      · exact absurd hp hpa
      · exact ih hs.of_cons e hfind e2 hmem hp

/-- C8: `find_steam_userdata` is deterministic: it returns nothing when
the base directory does not exist or no all-digit subdirectory is
present, and otherwise returns (with its name as account id) a
qualifying subdirectory that is lexicographically least among all
qualifying subdirectories. -/
theorem find_userdata_first_numeric :
    find_steam_userdata none = none ∧
      ∀ entries : List DirEntry,
        (find_steam_userdata (some entries) = none ↔
          ∀ e ∈ entries, entryQualifies e = false) ∧
        (∀ (name : String) (e : DirEntry),
          find_steam_userdata (some entries) = some (name, e) →
          e ∈ entries ∧ entryQualifies e = true ∧ name = e.name ∧
            ∀ e2 ∈ entries, entryQualifies e2 = true →
              lexLe e.name.toList e2.name.toList = true) := by
  refine ⟨rfl, fun entries => ⟨?_, ?_⟩⟩
  · simp only [find_steam_userdata, Option.map_eq_none']
    rw [List.find?_eq_none]
    constructor
    · intro h e he
      have hmem : e ∈ sortEntries entries := by
        simpa [sortEntries, List.mem_insertionSort] using he
      simpa using h e hmem
    · intro h e he
      have hmem : e ∈ entries := by
        simpa [sortEntries, List.mem_insertionSort] using he
      simp [h e hmem]
  · intro name e hfind
    simp only [find_steam_userdata, Option.map_eq_some'] at hfind
    obtain ⟨e0, hf0, heq⟩ := hfind
    injection heq with h1 h2
    subst h2
    subst h1
    refine ⟨?_, List.find?_some hf0, rfl, ?_⟩
    · have hmem := List.mem_of_find?_eq_some hf0
      simpa [sortEntries, List.mem_insertionSort] using hmem
    · intro e2 he2 hq
      have hsorted : (sortEntries entries).Sorted entryLe :=
        List.sorted_insertionSort entryLe entries
      have hmem2 : e2 ∈ sortEntries entries := by
        simpa [sortEntries, List.mem_insertionSort] using he2
      exact find_first_sorted_min (sortEntries entries) hsorted e0 hf0 e2 hmem2 hq

/-- Witness for C8: among the children `abc/`, `7/`, `123/` and the
plain file `5`, the resolver picks `123/` (the lexicographically least
all-digit directory name: "123" sorts before "7"). -/
theorem find_userdata_first_numeric_witness :
    DirEntry.mk "123" true ∈
        [DirEntry.mk "abc" true, DirEntry.mk "7" true, DirEntry.mk "123" true,
          DirEntry.mk "5" false] ∧
      entryQualifies (DirEntry.mk "123" true) = true ∧
      "123" = (DirEntry.mk "123" true).name ∧
      ∀ e2 ∈ [DirEntry.mk "abc" true, DirEntry.mk "7" true,
          DirEntry.mk "123" true, DirEntry.mk "5" false],
        entryQualifies e2 = true →
          lexLe (DirEntry.mk "123" true).name.toList e2.name.toList = true :=
  (find_userdata_first_numeric.2
      [DirEntry.mk "abc" true, DirEntry.mk "7" true, DirEntry.mk "123" true,
        DirEntry.mk "5" false]).2
    "123" (DirEntry.mk "123" true) (by decide)

/-- Embedding of Python `s.strip()`. -/
def pyStrip (s : String) : String := String.mk (stripWs s.toList)

/-- Externally visible actions of the apply handler: a warning dialog
(no side effect), a network fetch into a grid-directory file, or the
sidecar copy-or-write call. -/
inductive Effect where
  | warn (title : String) : Effect
  | download (url : String) (dest : String) : Effect
  | writeSidecar (source target : String) : Effect
deriving DecidableEq, Repr

/-- The fixed CDN prefix of the four artwork locators (lines 244-247). -/
def cdnBase : String := "https://steamcdn-a.akamaihd.net/steam/apps/"

/-- Embedding of `SteamNonSteamArtApply.on_apply` (lines 228-263) as the
sequence of externally visible actions it performs.  `row` is the
selected list row (`-1` when nothing is selected), `shortcuts` the
loaded records, `inputText` the raw text of the AppID field.  A negative
row or a non-numeric stripped source id returns only a warning; `none`
models the IndexError of `self.shortcuts[row]` on an out-of-range row
(unreachable through the GUI, whose list rows mirror `shortcuts`). -/
def on_apply (row : Int) (shortcuts : List ShortcutRecord)
    (inputText : String) : Option (List Effect) :=
  if row < 0 then some [Effect.warn "Select an entry"]
  else
    let source_appid := pyStrip inputText
    if !pyIsdigit source_appid then some [Effect.warn "Invalid AppID"]
    else
      match shortcuts[row.toNat]? with
      | none => none
      | some target_entry =>
        let target_id := target_entry.appid
        some
          [Effect.download
              (cdnBase ++ source_appid ++ "/library_600x900_2x.jpg")
              (target_id ++ "p.jpg"),
            Effect.download (cdnBase ++ source_appid ++ "/library_411x184.jpg")
              (target_id ++ ".jpg"),
            Effect.download (cdnBase ++ source_appid ++ "/library_hero.jpg")
              (target_id ++ "_hero.jpg"),
            Effect.download (cdnBase ++ source_appid ++ "/logo.png")
              (target_id ++ "_logo.png"),
            Effect.writeSidecar source_appid target_id]

/-- Whether an action touches the network or the file system. -/
def isSideEffect : Effect → Bool
  | .warn _ => false
  | _ => true

/-- C9: when the stripped source identifier is not all digits, the apply
handler stops at validation: it emits exactly one warning (either the
no-selection warning or the invalid-AppID warning) and performs no
network fetch and no file write. -/
theorem apply_rejects_nonnumeric (row : Int) (shortcuts : List ShortcutRecord)
    (inputText : String) (h : pyIsdigit (pyStrip inputText) = false) :
    (on_apply row shortcuts inputText = some [Effect.warn "Select an entry"] ∨
      on_apply row shortcuts inputText = some [Effect.warn "Invalid AppID"]) ∧
      ∀ effects, on_apply row shortcuts inputText = some effects →
        ∀ e ∈ effects, isSideEffect e = false := by
  by_cases hrow : row < 0
  · refine ⟨Or.inl (by simp [on_apply, hrow]), ?_⟩
    intro effects heff e he
    simp [on_apply, hrow] at heff
    subst heff
    simp at he
    subst he
    rfl
  · refine ⟨Or.inr (by simp [on_apply, hrow, h]), ?_⟩
    intro effects heff e he
    simp [on_apply, hrow, h] at heff
    subst heff
    simp at he
    subst he
    rfl

/-- Witness for C9 at the source identifier `"abc123"`: the handler
returns only the invalid-AppID warning, which is not a side effect. -/
theorem apply_rejects_nonnumeric_witness :
    on_apply 0 [] "abc123" = some [Effect.warn "Invalid AppID"] ∧
      isSideEffect (Effect.warn "Invalid AppID") = false :=
  ⟨by decide,
    (apply_rejects_nonnumeric 0 [] "abc123" (by decide)).2
      [Effect.warn "Invalid AppID"] (by decide) (Effect.warn "Invalid AppID")
      (by decide)⟩
